import Mathlib

/-!
Verification development for the mint-sniper bot (`src/sniper.ts`).

The repository ships two variants of the same program in one file: an
original script (lines 1-211, `NonceManager`, `buildAndSendMint`,
`attemptMintWithBump`, `main`) and a class-based refactor (lines 212-448,
`NonceManager`, `MintSniper`, `buildConfig`).  The embedding below follows
the class-based `MintSniper` variant, whose line ranges the claims cite,
and notes in comments where the original script differs on a modelled path.

JavaScript `bigint` values are modelled as `Int`, the float arithmetic of
`bumpPriority` (gwei formatting, multiplication, `Math.ceil`) is modelled
exactly over `Rat`, and every external await (RPC call, broadcast,
confirmation wait) is an oracle input supplied through an environment
record.
-/

namespace Sniper

/-- `ethers.parseUnits(g.toString(), "gwei")`: a gwei amount as wei. -/
def gweiToWei (g : ℕ) : ℤ := (g : ℤ) * 10 ^ 9

/-- `ethers.formatUnits(wei, "gwei")` followed by `Number(...)`:
the wei amount expressed in gwei, modelled exactly as a rational. -/
def formatUnitsGwei (wei : ℤ) : ℚ := (wei : ℚ) / 10 ^ 9

inductive FeeError
  | unavailable
deriving DecidableEq, Repr

/-- `MintSniper.getPriorityFee` (sniper.ts 359-366).  `suggested` is
`feeData.maxPriorityFeePerGas` (`bigint | null`).  The JS guard
`if (!priority) throw` is truthy-based: it fires on `null` and also on
`0n`, so both are modelled as the error branch. -/
def getPriorityFee (maxPriorityFeeGwei : ℕ) (suggested : Option ℤ) :
    Except FeeError ℤ :=
  match suggested with
  | none => .error .unavailable
  | some p =>
    if p = 0 then .error .unavailable
    else
      let maxPriority := gweiToWei maxPriorityFeeGwei
      .ok (if p > maxPriority then maxPriority else p)

/-- `MintSniper.bumpPriority` (sniper.ts 353-357):
`baseGwei = Number(formatUnits(base, "gwei"))`,
`bumpedGwei = Math.ceil(baseGwei * feeBumpFactor)`,
`parseUnits(String(bumpedGwei), "gwei")`.
Numeric operations are modelled exactly (IEEE rounding not modelled). -/
def bumpPriority (feeBumpFactor : ℚ) (base : ℤ) : ℤ :=
  ⌈formatUnitsGwei base * feeBumpFactor⌉ * 10 ^ 9

/-- The `NonceManager` fields (sniper.ts 235-237): `locked`, `nonce`
(sentinel `-1` until `init` runs). -/
structure NonceState where
  locked : Bool
  nonce : ℤ
deriving DecidableEq, Repr

/-- Field initializers of `new NonceManager(provider)` (sniper.ts 236-237). -/
def NonceState.fresh : NonceState := ⟨false, -1⟩

/-- `NonceManager.init` (sniper.ts 241-243): overwrite the counter with the
chain-reported transaction count. -/
def nmInit (chainCount : ℤ) (s : NonceState) : NonceState :=
  { s with nonce := chainCount }

/-- `NonceManager.release` (sniper.ts 253-255). -/
def nmRelease (s : NonceState) : NonceState := { s with locked := false }

/-- `NonceManager.sync` (sniper.ts 257-263): raise the counter to the
chain-reported count when strictly behind, otherwise leave it alone. -/
def nmSync (chainNonce : ℤ) (s : NonceState) : NonceState :=
  if chainNonce > s.nonce then { s with nonce := chainNonce } else s

/-!
### Cooperative trace semantics of `NonceManager.next`/`release`

`next` (sniper.ts 245-251) spins on `locked` with an awaited sleep; once it
observes `locked == false` it sets `locked = true` and returns `nonce++`
with no `await` in between, so in the single-threaded cooperative
scheduler the check-and-set plus increment is one atomic step.  A trace is
a list of scheduler steps; a spinning caller's turn is a `sleep` step.
`holders` is ghost state recording which caller is between its successful
acquisition and its `release` (in the program, `release` is executed only
by the attempt that performed the matching allocation).
-/

inductive SeqOp
  | alloc (id : ℕ)
  | rel (id : ℕ)
  | sleep (id : ℕ)
deriving DecidableEq, Repr

structure LockState where
  locked : Bool
  nonce : ℤ
  holders : List ℕ
deriving DecidableEq, Repr

/-- Scheduler-step enabledness: the atomic acquisition step of `next` only
runs once the spin loop has observed `locked == false`; a `rel` step is
issued by a current holder; `sleep` is always enabled. -/
def stepOk (s : LockState) : SeqOp → Bool
  | .alloc _ => !s.locked
  | .rel i => s.holders.contains i
  | .sleep _ => true

/-- Effect of one scheduler step (`next`'s atomic acquire, `release`, or a
spin-wait sleep). -/
def applyOp (s : LockState) : SeqOp → LockState
  | .alloc i => ⟨true, s.nonce + 1, i :: s.holders⟩
  | .rel i => ⟨false, s.nonce, s.holders.erase i⟩
  | .sleep _ => s

def validTrace : LockState → List SeqOp → Bool
  | _, [] => true
  | s, op :: ops => stepOk s op && validTrace (applyOp s op) ops

/-- The values returned by `next` along a trace, in acquisition order
(each successful acquire returns the pre-increment counter). -/
def allocValues : LockState → List SeqOp → List ℤ
  | _, [] => []
  | s, op :: ops =>
    match op with
    | .alloc _ => s.nonce :: allocValues (applyOp s op) ops
    | _ => allocValues (applyOp s op) ops

def countAllocs : List SeqOp → ℕ
  | [] => 0
  | .alloc _ :: ops => countAllocs ops + 1
  | _ :: ops => countAllocs ops

/-- All states a trace passes through, the start state included. -/
def statesAlong : LockState → List SeqOp → List LockState
  | s, [] => [s]
  | s, op :: ops => s :: statesAlong (applyOp s op) ops

def lockInv (s : LockState) : Prop :=
  s.holders.length ≤ 1 ∧ (s.locked = false → s.holders = [])

/-!
### The submission pipeline

`MintSniper.buildAndSendMint` (sniper.ts 368-403) and
`MintSniper.attemptMint` (sniper.ts 335-351).  Every awaited external call
is an oracle value supplied via `AttemptEnv`; after `bootstrap`
(sniper.ts 281-303) the contract, the selector and the nonce manager are
set, and `wallet` is set exactly when `dryRun` is false, so the guard
`this.cfg.dryRun || !signer` coincides with `dryRun`.
-/

inductive WaitOutcome
  | errW
  | nullReceipt
  | receipt (status : ℕ)
deriving DecidableEq, Repr

/-- Oracle outcomes, one per external await of a single
`buildAndSendMint` call: does `contract.mint.populateTransaction`
resolve, does `signer.sendTransaction` resolve, what `sentTx.wait(1)`
does, and the chain count `nonceMgr.sync` reads (`none` = that query
rejects). -/
structure AttemptEnv where
  populateOk : Bool
  sendOk : Bool
  wait : WaitOutcome
  syncCount : Option ℤ
deriving DecidableEq, Repr

inductive BuildResult
  | blocked
  | dryRunDone
  | returned (receipt : Option ℕ)
  | threw
deriving DecidableEq, Repr

/-- What one `buildAndSendMint` call did: how it returned, the sequencer
state it left behind, how many times it invoked `release()`, how many
times it invoked `sendTransaction` (broadcasts), and the nonce it
allocated (if the allocation ever completed). -/
structure BuildOutput where
  result : BuildResult
  state : NonceState
  releases : ℕ
  sends : ℕ
  usedNonce : Option ℤ
deriving DecidableEq, Repr

/-- `MintSniper.buildAndSendMint` (sniper.ts 368-403) as a state
transformer over the sequencer state.  If the lock is already held and no
other task will release it, `next()` spins forever (`blocked`).  Note the
code order: `nonce = await nonceMgr.next()` (374), then
`populateTransaction` (376-381) OUTSIDE any try/finally, then the dry-run
short-circuit with its explicit `release()` (383-391), then the
try/finally wrapping send / wait / sync with `release()` in `finally`
(393-402).  The original script's `buildAndSendMint` (103-147) releases in
a `catch` instead of a `finally` and also leaves `populateTransaction`
outside it, with the same observable release/send counts on these paths. -/
def buildAndSendMint (dryRun : Bool) (env : AttemptEnv) (s : NonceState) :
    BuildOutput :=
  if s.locked then
    { result := .blocked, state := s, releases := 0, sends := 0,
      usedNonce := none }
  else
    let n := s.nonce
    let s1 : NonceState := { locked := true, nonce := s.nonce + 1 }
    if env.populateOk = false then
      { result := .threw, state := s1, releases := 0, sends := 0,
        usedNonce := some n }
    else if dryRun then
      { result := .dryRunDone, state := nmRelease s1, releases := 1,
        sends := 0, usedNonce := some n }
    else if env.sendOk = false then
      { result := .threw, state := nmRelease s1, releases := 1, sends := 1,
        usedNonce := some n }
    else
      match env.wait with
      | .errW =>
        { result := .threw, state := nmRelease s1, releases := 1,
          sends := 1, usedNonce := some n }
      | .nullReceipt =>
        match env.syncCount with
        | none =>
          { result := .threw, state := nmRelease s1, releases := 1,
            sends := 1, usedNonce := some n }
        | some c =>
          { result := .returned none, state := nmRelease (nmSync c s1),
            releases := 1, sends := 1, usedNonce := some n }
      | .receipt st =>
        match env.syncCount with
        | none =>
          { result := .threw, state := nmRelease s1, releases := 1,
            sends := 1, usedNonce := some n }
        | some c =>
          { result := .returned (some st),
            state := nmRelease (nmSync c s1), releases := 1, sends := 1,
            usedNonce := some n }

/-- Oracle outcomes for one `attemptMint` run: the suggested priority fee
(`feeData.maxPriorityFeePerGas`) and the outcomes of the at most two
`buildAndSendMint` calls. -/
structure MintEnv where
  suggestedFee : Option ℤ
  first : AttemptEnv
  second : AttemptEnv
deriving DecidableEq, Repr

/-- One `buildAndSendMint` invocation as seen from `attemptMint`: the
priority fee passed in and everything the call did. -/
structure AttemptRecord where
  fee : ℤ
  out : BuildOutput
deriving DecidableEq, Repr

inductive MintResult
  | feeAborted
  | hung
  | done
deriving DecidableEq, Repr

structure MintOutput where
  result : MintResult
  state : NonceState
  records : List AttemptRecord
deriving DecidableEq, Repr

structure SniperCfg where
  maxPriorityFeeGwei : ℕ
  feeBumpFactor : ℚ
  dryRun : Bool
deriving DecidableEq, Repr

/-- `MintSniper.attemptMint` (sniper.ts 335-351): fetch the fee (a throw
propagates to the caller, `feeAborted`), run `buildAndSendMint`; if and
only if that call throws, bump the base fee and run it once more, catching
any second failure.  A `buildAndSendMint` that never returns (spinning in
`next()`) hangs the whole attempt (`hung`). -/
def attemptMint (cfg : SniperCfg) (env : MintEnv) (s : NonceState) :
    MintOutput :=
  match getPriorityFee cfg.maxPriorityFeeGwei env.suggestedFee with
  | .error _ => { result := .feeAborted, state := s, records := [] }
  | .ok basePriority =>
    let o1 := buildAndSendMint cfg.dryRun env.first s
    if o1.result = .blocked then
      { result := .hung, state := o1.state,
        records := [⟨basePriority, o1⟩] }
    else if o1.result = .threw then
      let bumped := bumpPriority cfg.feeBumpFactor basePriority
      let o2 := buildAndSendMint cfg.dryRun env.second o1.state
      if o2.result = .blocked then
        { result := .hung, state := o2.state,
          records := [⟨basePriority, o1⟩, ⟨bumped, o2⟩] }
      else
        { result := .done, state := o2.state,
          records := [⟨basePriority, o1⟩, ⟨bumped, o2⟩] }
    else
      { result := .done, state := o1.state,
        records := [⟨basePriority, o1⟩] }

/-- `MintSniper.bootstrap` (sniper.ts 296-302): a fresh `NonceManager`
(counter `-1`), whose `init` runs only when a wallet exists, i.e. only
when dry run is disabled. -/
def bootstrapNonceState (dryRun : Bool) (chainCount : ℤ) : NonceState :=
  if dryRun then NonceState.fresh else nmInit chainCount NonceState.fresh

/-- A sequence of detected calls handled one after the other: fold
`attemptMint` over the per-detection environments, concatenating the
attempt records. -/
def runAttempts (cfg : SniperCfg) :
    NonceState → List MintEnv → NonceState × List AttemptRecord
  | s, [] => (s, [])
  | s, env :: rest =>
    let o := attemptMint cfg env s
    let r := runAttempts cfg o.state rest
    (r.1, o.records ++ r.2)

/-!
### Startup validation

`buildConfig` (sniper.ts 406-432): the `required` list is
`["RPC_WSS", "PRIVATE_KEY", "TARGET_CONTRACT"]` unconditionally — the
dry-run flag is not consulted.  The JS emptiness test
`!process.env[key]` is truthy-based: it fires on an unset variable and on
the empty string.  The original script's validation (60-68) tests the
same three variables and the same placeholder. -/

/-- JS falsiness of an optional environment string. -/
def isFalsyEnv : Option String → Bool
  | none => true
  | some s => s = ""

structure RawEnv where
  rpcWss : Option String
  privateKey : Option String
  targetContract : Option String
  dryRunVar : Bool
deriving DecidableEq, Repr

inductive StartupError
  | missingEnv
  | placeholderKey
deriving DecidableEq, Repr

/-- The validation part of `buildConfig` (sniper.ts 407-418):
`process.exit(1)` on a missing required variable or on the placeholder
key, modelled as the error branch. -/
def validateStartup (e : RawEnv) : Except StartupError Unit :=
  if isFalsyEnv e.rpcWss || isFalsyEnv e.privateKey ||
      isFalsyEnv e.targetContract then
    .error .missingEnv
  else if e.privateKey = some "0xYOUR_BURNER_PRIVATE_KEY" then
    .error .placeholderKey
  else
    .ok ()

/-- Whether the fee fetch of `attemptMint` succeeds (its throw would
propagate to the caller). -/
def feeFetchOk (g : ℕ) (suggested : Option ℤ) : Bool :=
  match getPriorityFee g suggested with
  | .ok _ => true
  | .error _ => false

/-- Per-detection environment under which a dry-run attempt completes
normally: transaction building succeeds and the fee fetch succeeds. -/
def dryEnvOk (g : ℕ) (env : MintEnv) : Bool :=
  env.first.populateOk && feeFetchOk g env.suggestedFee

end Sniper

deriving instance DecidableEq for Except

namespace Sniper

/-! ### Basic lemmas about the embedded operations -/

theorem feeFetchOk_ok {g : ℕ} {f : Option ℤ} (h : feeFetchOk g f = true) :
    ∃ b, getPriorityFee g f = .ok b := by
  unfold feeFetchOk at h
  cases hfe : getPriorityFee g f with
  | ok b => exact ⟨b, rfl⟩
  | error e => rw [hfe] at h; simp at h

theorem build_not_blocked (d : Bool) (e : AttemptEnv) (s : NonceState)
    (hl : s.locked = false) :
    (buildAndSendMint d e s).result ≠ .blocked := by
  rcases e with ⟨p, so, w, sc⟩
  cases p <;> cases d <;> cases so <;> cases w <;> cases sc <;>
    simp [buildAndSendMint, hl, nmRelease, nmSync]

theorem build_usedNonce (d : Bool) (e : AttemptEnv) (s : NonceState)
    (hl : s.locked = false) :
    (buildAndSendMint d e s).usedNonce = some s.nonce := by
  rcases e with ⟨p, so, w, sc⟩
  cases p <;> cases d <;> cases so <;> cases w <;> cases sc <;>
    simp [buildAndSendMint, hl, nmRelease, nmSync]

theorem build_dry (e : AttemptEnv) (s : NonceState)
    (hl : s.locked = false) (hp : e.populateOk = true) :
    buildAndSendMint true e s
      = ⟨.dryRunDone, ⟨false, s.nonce + 1⟩, 1, 0, some s.nonce⟩ := by
  simp [buildAndSendMint, hl, hp, nmRelease]

theorem build_dry_no_sends (e : AttemptEnv) (s : NonceState) :
    (buildAndSendMint true e s).sends = 0 := by
  rcases e with ⟨p, so, w, sc⟩
  cases hl : s.locked <;> cases p <;>
    simp [buildAndSendMint, hl, nmRelease]

theorem build_sendFail (e : AttemptEnv) (s : NonceState)
    (hl : s.locked = false) (hp : e.populateOk = true)
    (hs : e.sendOk = false) :
    buildAndSendMint false e s
      = ⟨.threw, ⟨false, s.nonce + 1⟩, 1, 1, some s.nonce⟩ := by
  simp [buildAndSendMint, hl, hp, hs, nmRelease]

theorem build_receipt_result (e : AttemptEnv) (s : NonceState) (st : ℕ)
    (c : ℤ) (hl : s.locked = false) (hp : e.populateOk = true)
    (hs : e.sendOk = true) (hw : e.wait = .receipt st)
    (hc : e.syncCount = some c) :
    (buildAndSendMint false e s).result = .returned (some st) := by
  simp [buildAndSendMint, hl, hp, hs, hw, hc, nmRelease, nmSync]

/-! ### C5 — fee ceiling -/

/-- C5 counterexample: the claim says `estimate()` returns
`min(suggested, ceiling)` for every suggested fee the network returns,
but for a suggested fee of `0` the truthy guard `if (!priority)` fires and
`getPriorityFee` throws fee-unavailable instead of returning
`min(0, ceiling) = 0`. -/
theorem estimate_rejects_zero_fee :
    getPriorityFee 50 (some 0) ≠ Except.ok (min 0 (gweiToWei 50))
    ∧ getPriorityFee 50 (some 0) = .error .unavailable := by
  constructor
  · decide
  · decide

/-- C5 (amended): for every nonzero suggested fee, `getPriorityFee`
returns `min(suggested, ceiling)`, which never exceeds the ceiling; when
the suggested fee is missing — or zero, which the truthy guard treats as
missing — it fails with the fee-unavailable error. -/
theorem fee_ceiling_min_clamp (g : ℕ) (p : ℤ) (hp : p ≠ 0) :
    getPriorityFee g (some p) = .ok (min p (gweiToWei g))
    ∧ min p (gweiToWei g) ≤ gweiToWei g
    ∧ getPriorityFee g none = .error .unavailable
    ∧ getPriorityFee g (some 0) = .error .unavailable := by
  refine ⟨?_, min_le_right _ _, rfl, by simp [getPriorityFee]⟩
  simp only [getPriorityFee, hp, if_false]
  rcases le_or_lt p (gweiToWei g) with h | h
  · rw [if_neg (not_lt.mpr h), min_eq_left h]
  · rw [if_pos h, min_eq_right h.le]

/-- Witness for `fee_ceiling_min_clamp` at `g = 50`, `p = 80` gwei: the
returned fee is the 50 gwei ceiling. -/
theorem fee_ceiling_min_clamp_witness :
    getPriorityFee 50 (some (80 * 10 ^ 9))
      = .ok (min (80 * 10 ^ 9) (gweiToWei 50))
    ∧ min ((80 : ℤ) * 10 ^ 9) (gweiToWei 50) ≤ gweiToWei 50 := by
  have h := fee_ceiling_min_clamp 50 (80 * 10 ^ 9) (by decide)
  exact ⟨h.1, h.2.1⟩

/-! ### C6 — bump monotonicity -/

/-- C6: `bumpPriority` is the configured multiplication of the fee
expressed in gwei, rounded up to a whole gwei, and for any nonnegative fee
and any bump factor ≥ 1 (the configured default is 1.5) the bumped fee is
at least the input fee.  Determinism is immediate: `bumpPriority` is a
function of the factor and the fee alone. -/
theorem bump_monotone (factor : ℚ) (f : ℤ) (hf : 0 ≤ f)
    (hfac : 1 ≤ factor) :
    bumpPriority factor f = ⌈formatUnitsGwei f * factor⌉ * 10 ^ 9
    ∧ f ≤ bumpPriority factor f := by
  refine ⟨rfl, ?_⟩
  unfold bumpPriority formatUnitsGwei
  have hg0 : (0 : ℚ) ≤ (f : ℚ) / 10 ^ 9 := by positivity
  have h1 : (f : ℚ) / 10 ^ 9 ≤ (f : ℚ) / 10 ^ 9 * factor :=
    le_mul_of_one_le_right hg0 hfac
  have h2 : (f : ℚ) / 10 ^ 9 * factor
      ≤ (⌈(f : ℚ) / 10 ^ 9 * factor⌉ : ℚ) := Int.le_ceil _
  have h3 : (f : ℚ) / 10 ^ 9 ≤ (⌈(f : ℚ) / 10 ^ 9 * factor⌉ : ℚ) :=
    h1.trans h2
  have h4 : (f : ℚ) ≤ (⌈(f : ℚ) / 10 ^ 9 * factor⌉ : ℚ) * 10 ^ 9 := by
    have h5 := mul_le_mul_of_nonneg_right h3
      (by norm_num : (0 : ℚ) ≤ 10 ^ 9)
    calc (f : ℚ) = (f : ℚ) / 10 ^ 9 * 10 ^ 9 := by field_simp
    _ ≤ _ := h5
  exact_mod_cast h4

/-- Witness for `bump_monotone` at factor `3/2` (the default 1.5) and a
2 gwei fee. -/
theorem bump_monotone_witness :
    (0 : ℤ) ≤ 2 * 10 ^ 9 ∧ (1 : ℚ) ≤ 3 / 2
    ∧ (2 * 10 ^ 9 : ℤ) ≤ bumpPriority (3 / 2) (2 * 10 ^ 9) :=
  ⟨by norm_num, by norm_num,
    (bump_monotone (3 / 2) (2 * 10 ^ 9) (by norm_num) (by norm_num)).2⟩

/-! ### C7 — one-directional resync -/

/-- C7: `nmSync` sets the counter to the maximum of the local counter and
the chain-reported count; in particular it never decreases the counter,
for any chain-reported value, lower ones included, and it leaves the lock
flag alone. -/
theorem resync_never_decreases (s : NonceState) (chain : ℤ) :
    (nmSync chain s).nonce = max s.nonce chain
    ∧ s.nonce ≤ (nmSync chain s).nonce
    ∧ (nmSync chain s).locked = s.locked := by
  unfold nmSync
  rcases le_or_lt chain s.nonce with h | h
  · rw [if_neg (not_lt.mpr h)]
    exact ⟨(max_eq_left h).symm, le_refl _, rfl⟩
  · rw [if_pos h]
    exact ⟨(max_eq_right h.le).symm, h.le, rfl⟩

/-! ### C8 — fee failure aborts before any allocation -/

/-- C8: when the fee fetch fails (`maxPriorityFeePerGas` missing, or zero
under the truthy guard), `attemptMint` rethrows before ever touching the
nonce manager: the sequencer state (counter and lock) is returned exactly
as it was and no `buildAndSendMint` call — hence no allocation and no
submission — is recorded. -/
theorem fee_abort_leaves_sequencer_untouched (cfg : SniperCfg)
    (env : MintEnv) (s : NonceState) (e : FeeError)
    (h : getPriorityFee cfg.maxPriorityFeeGwei env.suggestedFee
      = .error e) :
    attemptMint cfg env s = ⟨.feeAborted, s, []⟩ := by
  unfold attemptMint
  rw [h]

/-- Witness for `fee_abort_leaves_sequencer_untouched`: no suggested fee
at all, a live sequencer state, nothing changes. -/
theorem fee_abort_leaves_sequencer_untouched_witness :
    getPriorityFee 50 none = .error .unavailable
    ∧ attemptMint ⟨50, 3 / 2, false⟩
        ⟨none, ⟨true, true, .receipt 1, some 0⟩,
         ⟨true, true, .receipt 1, some 0⟩⟩ ⟨false, 7⟩
      = ⟨.feeAborted, ⟨false, 7⟩, []⟩ :=
  ⟨by decide,
    fee_abort_leaves_sequencer_untouched ⟨50, 3 / 2, false⟩
      ⟨none, ⟨true, true, .receipt 1, some 0⟩,
       ⟨true, true, .receipt 1, some 0⟩⟩ ⟨false, 7⟩ .unavailable
      (by decide)⟩

/-! ### C3 — consecutive nonce allocation under interleaving -/

theorem range_map_shift (a : ℤ) (n : ℕ) :
    a :: (List.range n).map (fun k : ℕ => a + 1 + (k : ℤ))
      = (List.range (n + 1)).map (fun k : ℕ => a + (k : ℤ)) := by
  rw [List.range_succ_eq_map, List.map_cons, List.map_map]
  refine List.cons_eq_cons.mpr ⟨by simp, ?_⟩
  apply List.map_congr_left
  intro k _
  simp only [Function.comp_apply]
  push_cast
  ring

theorem lockInv_step (s : LockState) (op : SeqOp)
    (h : lockInv s) (hok : stepOk s op = true) :
    lockInv (applyOp s op) := by
  cases op with
  | alloc i =>
    have hl : s.locked = false := by simpa [stepOk] using hok
    have he : s.holders = [] := h.2 hl
    exact ⟨by simp [applyOp, he], by intro hc; simp [applyOp] at hc⟩
  | rel i =>
    have hmem : i ∈ s.holders := by simpa [stepOk] using hok
    have hone : s.holders = [i] := by
      cases hh : s.holders with
      | nil => rw [hh] at hmem; simp at hmem
      | cons a t =>
        cases ht : t with
        | nil =>
          have ha : i = a := by
            rw [hh, ht] at hmem; simpa using hmem
          rw [ha]
        | cons b u =>
          exfalso
          have hlen := h.1
          rw [hh, ht] at hlen
          simp at hlen
    exact ⟨by simp [applyOp, hone], fun _ => by simp [applyOp, hone]⟩
  | sleep i =>
    simpa [applyOp] using h

theorem seq_trace_spec : ∀ (ops : List SeqOp) (s : LockState),
    validTrace s ops = true → lockInv s →
    allocValues s ops
      = (List.range (countAllocs ops)).map (fun k : ℕ => s.nonce + (k : ℤ))
    ∧ ∀ t ∈ statesAlong s ops, t.holders.length ≤ 1 := by
  intro ops
  induction ops with
  | nil =>
    intro s _ hinv
    refine ⟨by simp [allocValues, countAllocs], ?_⟩
    intro t ht
    simp [statesAlong] at ht
    subst ht
    exact hinv.1
  | cons op rest ih =>
    intro s hv hinv
    rw [validTrace, Bool.and_eq_true] at hv
    have hinv' := lockInv_step s op hinv hv.1
    obtain ⟨ih1, ih2⟩ := ih (applyOp s op) hv.2 hinv'
    constructor
    · cases op with
      | alloc i =>
        show s.nonce :: allocValues (applyOp s (.alloc i)) rest = _
        rw [ih1]
        show s.nonce :: (List.range (countAllocs rest)).map
            (fun k : ℕ => s.nonce + 1 + (k : ℤ))
          = (List.range (countAllocs rest + 1)).map
            (fun k : ℕ => s.nonce + (k : ℤ))
        exact range_map_shift s.nonce (countAllocs rest)
      | rel i =>
        show allocValues (applyOp s (.rel i)) rest = _
        rw [ih1]
        rfl
      | sleep i =>
        show allocValues (applyOp s (.sleep i)) rest = _
        rw [ih1]
        rfl
    · intro t ht
      rw [statesAlong] at ht
      rcases List.mem_cons.mp ht with rfl | ht'
      · exact hinv.1
      · exact ih2 t ht'

/-- C3: along any valid cooperative schedule of `next`/`release` steps
started from a quiescent sequencer (lock free, nobody holding), with no
intervening resync, the values `next` returns are exactly the consecutive
integers `start, start+1, …` in acquisition order — no repeats, no gaps —
and at every instant along the trace at most one caller holds the lock. -/
theorem nonce_allocation_consecutive (s : LockState) (ops : List SeqOp)
    (hl : s.locked = false) (hh : s.holders = [])
    (hv : validTrace s ops = true) :
    allocValues s ops
      = (List.range (countAllocs ops)).map (fun k : ℕ => s.nonce + (k : ℤ))
    ∧ ∀ t ∈ statesAlong s ops, t.holders.length ≤ 1 :=
  seq_trace_spec ops s hv ⟨by simp [hh], fun _ => hh⟩

/-- Witness for `nonce_allocation_consecutive`: a five-step schedule of
two callers (the second spins once while the first holds the lock)
starting at counter 5 yields the nonces 5 and 6 in order. -/
theorem nonce_allocation_consecutive_witness :
    validTrace ⟨false, 5, []⟩
        [.alloc 0, .sleep 1, .rel 0, .alloc 1, .rel 1] = true
    ∧ allocValues ⟨false, 5, []⟩
        [.alloc 0, .sleep 1, .rel 0, .alloc 1, .rel 1]
      = (List.range 2).map (fun k : ℕ => (5 : ℤ) + (k : ℤ)) :=
  ⟨by decide,
    (nonce_allocation_consecutive ⟨false, 5, []⟩
      [.alloc 0, .sleep 1, .rel 0, .alloc 1, .rel 1]
      rfl rfl (by decide)).1⟩

/-! ### The retry orchestration (C1, C2, C4) -/

theorem attemptMint_ok (cfg : SniperCfg) (env : MintEnv) (s : NonceState)
    (b : ℤ)
    (hfee : getPriorityFee cfg.maxPriorityFeeGwei env.suggestedFee
      = .ok b) :
    attemptMint cfg env s =
      if (buildAndSendMint cfg.dryRun env.first s).result = .blocked then
        ⟨.hung, (buildAndSendMint cfg.dryRun env.first s).state,
         [⟨b, buildAndSendMint cfg.dryRun env.first s⟩]⟩
      else if (buildAndSendMint cfg.dryRun env.first s).result
          = .threw then
        if (buildAndSendMint cfg.dryRun env.second
              (buildAndSendMint cfg.dryRun env.first s).state).result
            = .blocked then
          ⟨.hung,
           (buildAndSendMint cfg.dryRun env.second
             (buildAndSendMint cfg.dryRun env.first s).state).state,
           [⟨b, buildAndSendMint cfg.dryRun env.first s⟩,
            ⟨bumpPriority cfg.feeBumpFactor b,
             buildAndSendMint cfg.dryRun env.second
               (buildAndSendMint cfg.dryRun env.first s).state⟩]⟩
        else
          ⟨.done,
           (buildAndSendMint cfg.dryRun env.second
             (buildAndSendMint cfg.dryRun env.first s).state).state,
           [⟨b, buildAndSendMint cfg.dryRun env.first s⟩,
            ⟨bumpPriority cfg.feeBumpFactor b,
             buildAndSendMint cfg.dryRun env.second
               (buildAndSendMint cfg.dryRun env.first s).state⟩]⟩
      else
        ⟨.done, (buildAndSendMint cfg.dryRun env.first s).state,
         [⟨b, buildAndSendMint cfg.dryRun env.first s⟩]⟩ := by
  unfold attemptMint
  rw [hfee]

/-- C1 counterexample: the claim says an error during the confirmation
wait after a successful broadcast never causes a second submission
attempt.  In the code the `try`/`finally` of `buildAndSendMint` wraps
`sentTx.wait(1)` as well, so a wait error propagates and `attemptMint`
retries: with a first attempt whose broadcast succeeds
(`sendOk = true`, one send recorded) and whose wait rejects (`errW`),
two submission attempts occur and the second one broadcasts too. -/
theorem retry_after_wait_error :
    ((attemptMint ⟨50, 3 / 2, false⟩
        ⟨some (2 * 10 ^ 9),
         ⟨true, true, .errW, some 0⟩,
         ⟨true, true, .receipt 1, some 0⟩⟩
        ⟨false, 7⟩).records.map fun r => (r.out.sends, r.out.result))
      = [(1, .threw), (1, .returned (some 1))] := by
  decide

/-- C1 (amended): a second submission attempt is triggered exactly when
the first `buildAndSendMint` call throws — which covers broadcast
failure, but also a confirmation-wait error or a resync error after a
successful broadcast; a transaction confirmed with a receipt (any status,
a reverted status 0 included) does not trigger a retry. -/
theorem retry_iff_first_attempt_threw (cfg : SniperCfg)
    (env : MintEnv) (s : NonceState) (basePriority : ℤ)
    (hfee : getPriorityFee cfg.maxPriorityFeeGwei env.suggestedFee
      = .ok basePriority)
    (hl : s.locked = false) :
    ((attemptMint cfg env s).records.length = 2
      ↔ (buildAndSendMint cfg.dryRun env.first s).result = .threw)
    ∧ (cfg.dryRun = false → env.first.populateOk = true →
        env.first.sendOk = true →
        ∀ st c, env.first.wait = .receipt st →
        env.first.syncCount = some c →
        (attemptMint cfg env s).records.length = 1) := by
  have hA := attemptMint_ok cfg env s basePriority hfee
  have hnb := build_not_blocked cfg.dryRun env.first s hl
  rw [hA, if_neg hnb]
  constructor
  · by_cases ht : (buildAndSendMint cfg.dryRun env.first s).result
        = .threw
    · rw [if_pos ht]
      by_cases h2 : (buildAndSendMint cfg.dryRun env.second
          (buildAndSendMint cfg.dryRun env.first s).state).result
          = .blocked
      · rw [if_pos h2]; simp [ht]
      · rw [if_neg h2]; simp [ht]
    · rw [if_neg ht]; simp [ht]
  · intro hdry hp hs st c hw hc
    have hres : (buildAndSendMint cfg.dryRun env.first s).result
        = .returned (some st) := by
      rw [hdry]
      exact build_receipt_result env.first s st c hl hp hs hw hc
    rw [if_neg (by rw [hres]; intro hcon; cases hcon)]
    rfl

/-- Witness for `retry_iff_first_attempt_threw`: first attempt fails at
broadcast, so the retry fires and two records exist. -/
theorem retry_iff_first_attempt_threw_witness :
    (attemptMint ⟨50, 3 / 2, false⟩
        ⟨some (2 * 10 ^ 9), ⟨true, false, .receipt 1, some 0⟩,
         ⟨true, true, .receipt 1, some 0⟩⟩ ⟨false, 7⟩).records.length = 2
      ↔ (buildAndSendMint false
          (⟨true, false, .receipt 1, some 0⟩ : AttemptEnv)
          ⟨false, 7⟩).result = .threw :=
  (retry_iff_first_attempt_threw ⟨50, 3 / 2, false⟩
    ⟨some (2 * 10 ^ 9), ⟨true, false, .receipt 1, some 0⟩,
     ⟨true, true, .receipt 1, some 0⟩⟩ ⟨false, 7⟩ (2 * 10 ^ 9)
    (by decide) rfl).1

/-- C2: the claim asserts exactly one `release()` on every Submitter path
after a successful allocation, transaction-building errors included.  The
code allocates with `next()` and only then awaits
`populateTransaction` — outside the dry-run short-circuit and outside the
`try`/`finally` that guards the send — so when building throws (e.g. the
configured mint arguments do not match the ABI fragment), zero releases
happen, the lock stays held, and the next allocation spins forever. -/
theorem build_error_leaks_lock :
    (buildAndSendMint false ⟨false, true, .receipt 1, some 0⟩
        ⟨false, 5⟩).releases = 0
    ∧ (buildAndSendMint false ⟨false, true, .receipt 1, some 0⟩
        ⟨false, 5⟩).state = ⟨true, 6⟩
    ∧ (buildAndSendMint false ⟨true, true, .receipt 1, some 0⟩
        (buildAndSendMint false ⟨false, true, .receipt 1, some 0⟩
          ⟨false, 5⟩).state).result = .blocked := by
  decide

/-- C4: when dry run is off and the first attempt fails at the broadcast
(the build succeeded, `sendTransaction` rejected), the orchestrator makes
exactly one further attempt — with the bumped fee and a freshly allocated
nonce, one above the first and never equal to it — and finishes in `done`
whatever the second attempt's environment does; the record list has
length two, so there is no third attempt. -/
theorem retry_exactly_once_bumped_fresh (cfg : SniperCfg) (env : MintEnv)
    (s : NonceState) (basePriority : ℤ)
    (hdry : cfg.dryRun = false)
    (hfee : getPriorityFee cfg.maxPriorityFeeGwei env.suggestedFee
      = .ok basePriority)
    (hl : s.locked = false)
    (hp : env.first.populateOk = true)
    (hs : env.first.sendOk = false) :
    (attemptMint cfg env s).records.map (fun r => r.fee)
      = [basePriority, bumpPriority cfg.feeBumpFactor basePriority]
    ∧ (attemptMint cfg env s).records.map (fun r => r.out.usedNonce)
      = [some s.nonce, some (s.nonce + 1)]
    ∧ (s.nonce + 1 : ℤ) ≠ s.nonce
    ∧ (attemptMint cfg env s).result = .done := by
  have hA := attemptMint_ok cfg env s basePriority hfee
  rw [hdry] at hA
  rw [build_sendFail env.first s hl hp hs] at hA
  have h2nb : (buildAndSendMint false env.second
      (⟨false, s.nonce + 1⟩ : NonceState)).result ≠ .blocked :=
    build_not_blocked false env.second ⟨false, s.nonce + 1⟩ rfl
  have h2n : (buildAndSendMint false env.second
      (⟨false, s.nonce + 1⟩ : NonceState)).usedNonce
      = some (s.nonce + 1) :=
    build_usedNonce false env.second ⟨false, s.nonce + 1⟩ rfl
  simp only [show ((⟨.threw, ⟨false, s.nonce + 1⟩, 1, 1, some s.nonce⟩ :
      BuildOutput)).result = .threw from rfl] at hA
  rw [if_pos trivial, if_neg h2nb] at hA
  rw [hA]
  refine ⟨by simp, ?_, by omega, rfl⟩
  simp [h2n]

/-- Witness for `retry_exactly_once_bumped_fresh`: broadcast rejection at
2 gwei, bump factor 1.5, counter at 7 — the two attempts use nonces 7 and
8 and fees 2 gwei then the bumped fee. -/
theorem retry_exactly_once_bumped_fresh_witness :
    (attemptMint ⟨50, 3 / 2, false⟩
        ⟨some (2 * 10 ^ 9), ⟨true, false, .receipt 1, some 0⟩,
         ⟨true, true, .receipt 1, some 0⟩⟩ ⟨false, 7⟩).records.map
        (fun r => r.fee)
      = [2 * 10 ^ 9, bumpPriority (3 / 2) (2 * 10 ^ 9)]
    ∧ (attemptMint ⟨50, 3 / 2, false⟩
        ⟨some (2 * 10 ^ 9), ⟨true, false, .receipt 1, some 0⟩,
         ⟨true, true, .receipt 1, some 0⟩⟩ ⟨false, 7⟩).records.map
        (fun r => r.out.usedNonce)
      = [some 7, some (7 + 1)]
    ∧ ((7 : ℤ) + 1 : ℤ) ≠ 7
    ∧ (attemptMint ⟨50, 3 / 2, false⟩
        ⟨some (2 * 10 ^ 9), ⟨true, false, .receipt 1, some 0⟩,
         ⟨true, true, .receipt 1, some 0⟩⟩ ⟨false, 7⟩).result = .done :=
  retry_exactly_once_bumped_fresh ⟨50, 3 / 2, false⟩
    ⟨some (2 * 10 ^ 9), ⟨true, false, .receipt 1, some 0⟩,
     ⟨true, true, .receipt 1, some 0⟩⟩ ⟨false, 7⟩ (2 * 10 ^ 9)
    rfl (by decide) rfl rfl rfl

/-! ### C9 — startup validation and dry run -/

/-- C9 counterexample: the claim says startup succeeds without a sender
credential when dry run is enabled, but `PRIVATE_KEY` sits in the
unconditional `required` list, so with the dry-run flag set and no key
configured the validation exits with the missing-variable error. -/
theorem dry_run_missing_key_exits :
    validateStartup ⟨some "wss://node", none, some "0xtarget", true⟩
      = .error .missingEnv := by
  decide

/-- C9 (amended): a sender credential must always be configured —
validation only passes when the key variable is set and nonempty, dry run
or not — while the dry-run part of the claim stands: in dry-run mode a
submission attempt never broadcasts. -/
theorem credential_required_even_when_dry (e : RawEnv)
    (h : validateStartup e = .ok ()) :
    isFalsyEnv e.privateKey = false
    ∧ ∀ (env : AttemptEnv) (s : NonceState),
        (buildAndSendMint true env s).sends = 0 := by
  refine ⟨?_, fun env s => build_dry_no_sends env s⟩
  cases hpk : isFalsyEnv e.privateKey
  · rfl
  · exfalso
    unfold validateStartup at h
    rw [hpk] at h
    simp at h

/-- Witness for `credential_required_even_when_dry` at a fully configured
environment. -/
theorem credential_required_even_when_dry_witness :
    isFalsyEnv (some "0xabc") = false
    ∧ (buildAndSendMint true ⟨true, true, .receipt 1, some 0⟩
        ⟨false, 0⟩).sends = 0 :=
  ⟨(credential_required_even_when_dry
      ⟨some "wss://node", some "0xabc", some "0xtarget", true⟩
      (by decide)).1,
   (credential_required_even_when_dry
      ⟨some "wss://node", some "0xabc", some "0xtarget", true⟩
      (by decide)).2 ⟨true, true, .receipt 1, some 0⟩ ⟨false, 0⟩⟩

/-! ### C10 — dry-run sentinel nonces -/

theorem runAttempts_dry (cfg : SniperCfg) (hdry : cfg.dryRun = true) :
    ∀ (envs : List MintEnv) (s : NonceState), s.locked = false →
    (∀ env ∈ envs, dryEnvOk cfg.maxPriorityFeeGwei env = true) →
    (runAttempts cfg s envs).2.filterMap (fun r => r.out.usedNonce)
      = (List.range envs.length).map (fun k : ℕ => s.nonce + (k : ℤ))
    ∧ (runAttempts cfg s envs).1 = ⟨false, s.nonce + envs.length⟩ := by
  intro envs
  induction envs with
  | nil =>
    intro s hl hgood
    refine ⟨by simp [runAttempts], ?_⟩
    show s = _
    cases s with
    | mk l n =>
      simp at hl
      simp [hl]
  | cons env rest ih =>
    intro s hl hgood
    have hgd := hgood env (List.mem_cons_self env rest)
    rw [dryEnvOk, Bool.and_eq_true] at hgd
    obtain ⟨b, hfee⟩ := feeFetchOk_ok hgd.2
    have hA := attemptMint_ok cfg env s b hfee
    rw [hdry] at hA
    rw [build_dry env.first s hl hgd.1] at hA
    rw [if_neg (by intro hcon; cases hcon),
        if_neg (by intro hcon; cases hcon)] at hA
    obtain ⟨ih1, ih2⟩ := ih ⟨false, s.nonce + 1⟩ rfl
      (fun e he => hgood e (List.mem_cons_of_mem env he))
    rw [runAttempts]
    simp only [hA]
    constructor
    · rw [List.filterMap_append]
      show (s.nonce :: List.filterMap (fun r => r.out.usedNonce)
          (runAttempts cfg ⟨false, s.nonce + 1⟩ rest).2)
        = (List.range (env :: rest).length).map
            (fun k : ℕ => s.nonce + (k : ℤ))
      rw [ih1]
      rw [List.length_cons]
      exact range_map_shift s.nonce rest.length
    · show (runAttempts cfg ⟨false, s.nonce + 1⟩ rest).1 = _
      rw [ih2]
      rw [List.length_cons]
      refine congrArg (NonceState.mk false) ?_
      push_cast
      ring

/-- C10: with dry run enabled, `bootstrap` never calls the sequencer's
`init`, so the counter keeps its `-1` sentinel whatever the sender's
on-chain transaction count is; a run of dry-run detections that build
successfully then allocates the nonces `-1, 0, 1, 2, …` in order. -/
theorem dry_run_sentinel_nonces (cfg : SniperCfg) (chain : ℤ)
    (envs : List MintEnv) (hdry : cfg.dryRun = true)
    (hgood : ∀ env ∈ envs, dryEnvOk cfg.maxPriorityFeeGwei env = true) :
    bootstrapNonceState cfg.dryRun chain = ⟨false, -1⟩
    ∧ (runAttempts cfg (bootstrapNonceState cfg.dryRun chain)
        envs).2.filterMap (fun r => r.out.usedNonce)
      = (List.range envs.length).map (fun k : ℕ => -1 + (k : ℤ)) := by
  have hb : bootstrapNonceState cfg.dryRun chain = ⟨false, -1⟩ := by
    rw [hdry]
    rfl
  refine ⟨hb, ?_⟩
  rw [hb]
  exact (runAttempts_dry cfg hdry envs ⟨false, -1⟩ rfl hgood).1

/-- Witness for `dry_run_sentinel_nonces`: three dry-run detections from
a bootstrap that skipped `init` (chain count 42 ignored) allocate
`-1, 0, 1`. -/
theorem dry_run_sentinel_nonces_witness :
    bootstrapNonceState true 42 = ⟨false, -1⟩
    ∧ (runAttempts ⟨50, 3 / 2, true⟩ (bootstrapNonceState true 42)
        [⟨some (2 * 10 ^ 9), ⟨true, true, .receipt 1, some 0⟩,
          ⟨true, true, .receipt 1, some 0⟩⟩,
         ⟨some (2 * 10 ^ 9), ⟨true, true, .receipt 1, some 0⟩,
          ⟨true, true, .receipt 1, some 0⟩⟩,
         ⟨some (2 * 10 ^ 9), ⟨true, true, .receipt 1, some 0⟩,
          ⟨true, true, .receipt 1, some 0⟩⟩]).2.filterMap
        (fun r => r.out.usedNonce)
      = (List.range 3).map (fun k : ℕ => -1 + (k : ℤ)) :=
  dry_run_sentinel_nonces ⟨50, 3 / 2, true⟩ 42
    [⟨some (2 * 10 ^ 9), ⟨true, true, .receipt 1, some 0⟩,
      ⟨true, true, .receipt 1, some 0⟩⟩,
     ⟨some (2 * 10 ^ 9), ⟨true, true, .receipt 1, some 0⟩,
      ⟨true, true, .receipt 1, some 0⟩⟩,
     ⟨some (2 * 10 ^ 9), ⟨true, true, .receipt 1, some 0⟩,
      ⟨true, true, .receipt 1, some 0⟩⟩] rfl (by decide)

end Sniper
